import Mathlib

/-!
Verification development for the `b2` storage engine (a Bitcask-family
append-only key-value store). The definitions below are a shallow
embedding of the Rust sources: `src/record.rs` (record codec),
`src/keydir.rs` (keydir and the open-time loader), `src/loadable.rs`
(per-file scan and latest-entry fold), and `src/base.rs` (open, get,
insert, remove, flush, merge). Keys and values are modelled as the byte
strings produced by the pluggable encoder (bincode), i.e. `List Nat`
with each element a byte; machine integers are `Nat` with explicit
truncation where the source truncates. Byte streams are `List Nat`;
the only read failure a pure byte list can exhibit is end-of-input,
matching `std::io::ErrorKind::UnexpectedEof` from `read_exact`.
Directory enumeration order, and hash-map iteration order, are
determinized as list order.
-/

namespace B2

/-! ### Association lists (determinized `HashMap`) -/

/-- Insert that replaces the value at an existing key in place and
otherwise appends, modelling `HashMap::insert`. -/
def assocInsert {α β : Type} [DecidableEq α] : List (α × β) → α → β → List (α × β)
  | [], k, v => [(k, v)]
  | (a, b) :: t, k, v => if a = k then (k, v) :: t else (a, b) :: assocInsert t k v

/-- Lookup modelling `HashMap::get`. -/
def assocGet {α β : Type} [DecidableEq α] : List (α × β) → α → Option β
  | [], _ => none
  | (a, b) :: t, k => if a = k then some b else assocGet t k

/-- Removal modelling `HashMap::remove`. -/
def assocErase {α β : Type} [DecidableEq α] : List (α × β) → α → List (α × β)
  | [], _ => []
  | (a, b) :: t, k => if a = k then t else (a, b) :: assocErase t k

/-- Apply `f` to the value stored at key `k` (used for appending bytes to a file). -/
def assocUpdate {α β : Type} [DecidableEq α] (l : List (α × β)) (k : α) (f : β → β) :
    List (α × β) :=
  l.map fun p => if p.1 = k then (p.1, f p.2) else p

/-! ### Sorting of file ids (`db_file_ids.sort()`) -/

/-- Insert into an ascending list. -/
def insertSorted (x : Nat) : List Nat → List Nat
  | [] => [x]
  | y :: t => if x ≤ y then x :: y :: t else y :: insertSorted x t

/-- Insertion sort, ascending, modelling `Vec::sort`. -/
def sortNat (l : List Nat) : List Nat :=
  l.foldr insertSorted []

/-! ### Big-endian integer encoding (`to_be_bytes` / `from_be_bytes`) -/

/-- Low `k` bytes of `n`, most significant byte first: `to_be_bytes`
restricted to width `k`. Keeping only the low bytes models the `as u16`
/ `as u32` casts in the source. -/
def beBytes : Nat → Nat → List Nat
  | 0, _ => []
  | k + 1, n => beBytes k (n / 256) ++ [n % 256]

/-- Big-endian decoding, `from_be_bytes`. -/
def parseBE (bs : List Nat) : Nat :=
  bs.foldl (fun acc b => acc * 256 + b) 0

theorem beBytes_length (k n : Nat) : (beBytes k n).length = k := by
  induction k generalizing n with
  | zero => rfl
  | succ m ih => simp [beBytes, ih]

theorem parseBE_append_one (bs : List Nat) (x : Nat) :
    parseBE (bs ++ [x]) = parseBE bs * 256 + x := by
  simp [parseBE, List.foldl_append]

/-- Round-trip: decoding the `k`-byte big-endian image of `n` gives `n mod 256^k`. -/
theorem parseBE_beBytes (k n : Nat) : parseBE (beBytes k n) = n % 256 ^ k := by
  induction k generalizing n with
  | zero => simp [beBytes, parseBE, Nat.mod_one]
  | succ m ih =>
    rw [beBytes, parseBE_append_one, ih]
    have h1 : n % (256 * 256 ^ m) / 256 = n / 256 % 256 ^ m :=
      Nat.mod_mul_right_div_self n 256 (256 ^ m)
    have h2 : n % (256 * 256 ^ m) % 256 = n % 256 :=
      Nat.mod_mod_of_dvd n ⟨256 ^ m, rfl⟩
    have h3 : 256 ^ (m + 1) = 256 * 256 ^ m := by ring
    rw [h3]
    have h4 := Nat.div_add_mod (n % (256 * 256 ^ m)) 256
    omega

/-! ### CRC-32 (IEEE, reflected; `crc32fast::hash`) -/

/-- One bit step of the reflected CRC-32 with polynomial `0xEDB88320`. -/
def crcStep (c : Nat) : Nat :=
  if c % 2 = 1 then (c / 2) ^^^ 0xEDB88320 else c / 2

/-- Fold one input byte into the CRC state. -/
def crcUpdate (c b : Nat) : Nat :=
  (crcStep^[8]) (c ^^^ b % 256)

/-- CRC-32 of a byte string, matching `crc32fast::hash` (initial value
`0xFFFFFFFF`, final xor `0xFFFFFFFF`). -/
def crc32 (bs : List Nat) : Nat :=
  (bs.foldl crcUpdate 0xFFFFFFFF) ^^^ 0xFFFFFFFF

theorem crcStep_lt (c : Nat) (h : c < 2 ^ 32) : crcStep c < 2 ^ 32 := by
  unfold crcStep
  split
  · exact Nat.xor_lt_two_pow (by omega) (by norm_num)
  · omega

theorem crcStep_iter_lt (n c : Nat) (h : c < 2 ^ 32) : (crcStep^[n]) c < 2 ^ 32 := by
  induction n generalizing c with
  | zero => simpa using h
  | succ m ih =>
    rw [Function.iterate_succ_apply]
    exact ih _ (crcStep_lt c h)

theorem crcUpdate_lt (c b : Nat) (h : c < 2 ^ 32) : crcUpdate c b < 2 ^ 32 := by
  unfold crcUpdate
  exact crcStep_iter_lt 8 _ (Nat.xor_lt_two_pow h (by omega))

theorem crc32_lt (bs : List Nat) : crc32 bs < 2 ^ 32 := by
  unfold crc32
  refine Nat.xor_lt_two_pow ?_ (by norm_num)
  induction bs using List.reverseRecOn with
  | nil => norm_num
  | append_singleton t x ih =>
    rw [List.foldl_append, List.foldl_cons, List.foldl_nil]
    exact crcUpdate_lt _ _ ih

/-! ### Record codec (`src/record.rs`) -/

/-- `Record::HEADER_SIZE`: 4 (crc) + 16 (tx_id) + 2 (key_size) + 4 (value_size). -/
def HEADER_SIZE : Nat := 26

/-- The raw tombstone bytes `b"bitcask_tombstone"` (`TOMBSTONE_BYTES`). -/
def TOMBSTONE_BYTES : List Nat :=
  [98, 105, 116, 99, 97, 115, 107, 95, 116, 111, 109, 98, 115, 116, 111, 110, 101]

/-- The cached `bincode::serialize(&TOMBSTONE_BYTES)` sentinel
(`SERIALIZED_TOMBSTONE`): bincode's legacy configuration encodes a byte
slice as an 8-byte little-endian length prefix followed by the raw
bytes. -/
def SERIALIZED_TOMBSTONE : List Nat :=
  [17, 0, 0, 0, 0, 0, 0, 0] ++ TOMBSTONE_BYTES

/-- `Record::new` over already-encoded key and value bytes: header with
big-endian tx_id (16 bytes), key size (2 bytes, truncated `as u16`),
value size (4 bytes, truncated `as u32`), then key then value; the
first 4 bytes are the big-endian CRC-32 of everything after them. -/
def recordMake (key val : List Nat) (txId : Nat) : List Nat :=
  let rest := beBytes 16 txId ++ beBytes 2 key.length ++ beBytes 4 val.length ++ key ++ val
  beBytes 4 (crc32 rest) ++ rest

/-- `Record::key_size` parsed from the buffer. -/
def keySizeOf (b : List Nat) : Nat :=
  parseBE ((b.drop 20).take 2)

/-- `Record::value_size` parsed from the buffer. -/
def valueSizeOf (b : List Nat) : Nat :=
  parseBE ((b.drop 22).take 4)

/-- `Record::tx_id` parsed from the buffer. -/
def txIdOf (b : List Nat) : Nat :=
  parseBE ((b.drop 4).take 16)

/-- `Record::key_bytes`. -/
def keyBytesOf (b : List Nat) : List Nat :=
  (b.drop HEADER_SIZE).take (keySizeOf b)

/-- `Record::value_bytes`. -/
def valueBytesOf (b : List Nat) : List Nat :=
  ((b.drop HEADER_SIZE).drop (keySizeOf b)).take (valueSizeOf b)

/-- `Record::hash_read_from_disk`: the stored CRC (first 4 header bytes). -/
def storedHashOf (b : List Nat) : Nat :=
  parseBE (b.take 4)

/-- `Record::computed_hash`: CRC-32 over tx_id bytes, key-size bytes,
value-size bytes and the body, exactly the slices the source hashes. -/
def computedHashOf (b : List Nat) : Nat :=
  crc32 (((b.drop 4).take 16) ++ ((b.drop 20).take 2) ++ ((b.drop 22).take 4) ++
    b.drop HEADER_SIZE)

/-- `Record::is_valid`. -/
def isValid (b : List Nat) : Bool :=
  storedHashOf b = computedHashOf b

/-- `Liveness` from `src/keydir.rs`. -/
inductive Liveness where
  | live
  | deleted
deriving DecidableEq, Repr

/-- `Record::liveness`: byte equality of the value bytes against the
cached serialized tombstone. -/
def livenessOf (b : List Nat) : Liveness :=
  if valueBytesOf b = SERIALIZED_TOMBSTONE then .deleted else .live

/-- `Record::read_from` on a byte stream: `read_exact` the 26 header
bytes, parse the two sizes, `read_exact` the body. `none` is
`UnexpectedEof` (the reader hit end of input before filling a buffer);
on success the consumed record and the remaining stream are returned. -/
def readFrom (s : List Nat) : Option (List Nat × List Nat) :=
  if s.length < HEADER_SIZE then none
  else
    let total := HEADER_SIZE + keySizeOf s + valueSizeOf s
    if s.length < total then none
    else some (s.take total, s.drop total)

/-- A byte string that is exactly one well-formed record image: at
least a header, and total length matching the sizes the header
declares. -/
def recordComplete (r : List Nat) : Prop :=
  HEADER_SIZE ≤ r.length ∧ r.length = HEADER_SIZE + keySizeOf r + valueSizeOf r

instance (r : List Nat) : Decidable (recordComplete r) := by
  unfold recordComplete; infer_instance

/-! ### Slicing lemmas for `recordMake` -/

theorem recordMake_length (key val : List Nat) (txId : Nat) :
    (recordMake key val txId).length = HEADER_SIZE + key.length + val.length := by
  simp [recordMake, beBytes_length, HEADER_SIZE]
  omega

theorem recordMake_drop4 (key val : List Nat) (txId : Nat) :
    (recordMake key val txId).drop 4 =
      beBytes 16 txId ++ beBytes 2 key.length ++ beBytes 4 val.length ++ key ++ val := by
  unfold recordMake
  rw [List.drop_left' (beBytes_length 4 _)]

theorem recordMake_take4 (key val : List Nat) (txId : Nat) :
    (recordMake key val txId).take 4 =
      beBytes 4 (crc32 (beBytes 16 txId ++ beBytes 2 key.length ++ beBytes 4 val.length ++
        key ++ val)) := by
  unfold recordMake
  rw [List.take_left' (beBytes_length 4 _)]

theorem recordMake_drop20 (key val : List Nat) (txId : Nat) :
    (recordMake key val txId).drop 20 =
      beBytes 2 key.length ++ beBytes 4 val.length ++ key ++ val := by
  have h : (recordMake key val txId).drop 20 = ((recordMake key val txId).drop 4).drop 16 := by
    rw [List.drop_drop]
  rw [h, recordMake_drop4]
  have h2 : beBytes 16 txId ++ beBytes 2 key.length ++ beBytes 4 val.length ++ key ++ val =
      beBytes 16 txId ++ (beBytes 2 key.length ++ beBytes 4 val.length ++ key ++ val) := by
    simp [List.append_assoc]
  rw [h2, List.drop_left' (beBytes_length 16 _)]

theorem recordMake_drop22 (key val : List Nat) (txId : Nat) :
    (recordMake key val txId).drop 22 = beBytes 4 val.length ++ key ++ val := by
  have h : (recordMake key val txId).drop 22 = ((recordMake key val txId).drop 20).drop 2 := by
    rw [List.drop_drop]
  rw [h, recordMake_drop20]
  have h2 : beBytes 2 key.length ++ beBytes 4 val.length ++ key ++ val =
      beBytes 2 key.length ++ (beBytes 4 val.length ++ key ++ val) := by
    simp [List.append_assoc]
  rw [h2, List.drop_left' (beBytes_length 2 _)]

theorem recordMake_drop26 (key val : List Nat) (txId : Nat) :
    (recordMake key val txId).drop HEADER_SIZE = key ++ val := by
  have h : (recordMake key val txId).drop HEADER_SIZE =
      ((recordMake key val txId).drop 22).drop 4 := by
    rw [List.drop_drop]; norm_num [HEADER_SIZE]
  rw [h, recordMake_drop22]
  have h2 : beBytes 4 val.length ++ key ++ val = beBytes 4 val.length ++ (key ++ val) := by
    simp [List.append_assoc]
  rw [h2, List.drop_left' (beBytes_length 4 _)]

theorem keySizeOf_recordMake (key val : List Nat) (txId : Nat) :
    keySizeOf (recordMake key val txId) = key.length % 65536 := by
  unfold keySizeOf
  rw [recordMake_drop20]
  have h : beBytes 2 key.length ++ beBytes 4 val.length ++ key ++ val =
      beBytes 2 key.length ++ (beBytes 4 val.length ++ key ++ val) := by
    simp [List.append_assoc]
  rw [h, List.take_left' (beBytes_length 2 _), parseBE_beBytes]
  norm_num

theorem valueSizeOf_recordMake (key val : List Nat) (txId : Nat) :
    valueSizeOf (recordMake key val txId) = val.length % 4294967296 := by
  unfold valueSizeOf
  rw [recordMake_drop22]
  have h : beBytes 4 val.length ++ key ++ val = beBytes 4 val.length ++ (key ++ val) := by
    simp [List.append_assoc]
  rw [h, List.take_left' (beBytes_length 4 _), parseBE_beBytes]
  norm_num

theorem txIdOf_recordMake (key val : List Nat) (txId : Nat) :
    txIdOf (recordMake key val txId) = txId % 2 ^ 128 := by
  unfold txIdOf
  rw [recordMake_drop4]
  have h : beBytes 16 txId ++ beBytes 2 key.length ++ beBytes 4 val.length ++ key ++ val =
      beBytes 16 txId ++ (beBytes 2 key.length ++ beBytes 4 val.length ++ key ++ val) := by
    simp [List.append_assoc]
  rw [h, List.take_left' (beBytes_length 16 _), parseBE_beBytes]
  norm_num

theorem keyBytesOf_recordMake (key val : List Nat) (txId : Nat)
    (hk : key.length ≤ 65535) :
    keyBytesOf (recordMake key val txId) = key := by
  unfold keyBytesOf
  rw [recordMake_drop26, keySizeOf_recordMake, Nat.mod_eq_of_lt (by omega),
    List.take_left' rfl]

theorem valueBytesOf_recordMake (key val : List Nat) (txId : Nat)
    (hk : key.length ≤ 65535) (hv : val.length ≤ 4294967295) :
    valueBytesOf (recordMake key val txId) = val := by
  unfold valueBytesOf
  rw [recordMake_drop26, keySizeOf_recordMake, valueSizeOf_recordMake,
    Nat.mod_eq_of_lt (show key.length < 65536 by omega),
    Nat.mod_eq_of_lt (show val.length < 4294967296 by omega),
    List.drop_left' rfl, List.take_of_length_le (le_refl _)]

theorem storedHashOf_recordMake (key val : List Nat) (txId : Nat) :
    storedHashOf (recordMake key val txId) =
      crc32 (beBytes 16 txId ++ beBytes 2 key.length ++ beBytes 4 val.length ++
        key ++ val) := by
  unfold storedHashOf
  rw [recordMake_take4, parseBE_beBytes]
  exact Nat.mod_eq_of_lt (by simpa using crc32_lt _)

theorem computedHashOf_recordMake (key val : List Nat) (txId : Nat) :
    computedHashOf (recordMake key val txId) =
      crc32 (beBytes 16 txId ++ beBytes 2 key.length ++ beBytes 4 val.length ++
        key ++ val) := by
  unfold computedHashOf
  rw [recordMake_drop4, recordMake_drop20, recordMake_drop22, recordMake_drop26]
  have t1 : (beBytes 16 txId ++ beBytes 2 key.length ++ beBytes 4 val.length ++
      key ++ val).take 16 = beBytes 16 txId := by
    rw [show beBytes 16 txId ++ beBytes 2 key.length ++ beBytes 4 val.length ++ key ++ val =
        beBytes 16 txId ++ (beBytes 2 key.length ++ beBytes 4 val.length ++ key ++ val) by
      simp [List.append_assoc]]
    exact List.take_left' (beBytes_length 16 _)
  have t2 : (beBytes 2 key.length ++ beBytes 4 val.length ++ key ++ val).take 2 =
      beBytes 2 key.length := by
    rw [show beBytes 2 key.length ++ beBytes 4 val.length ++ key ++ val =
        beBytes 2 key.length ++ (beBytes 4 val.length ++ key ++ val) by
      simp [List.append_assoc]]
    exact List.take_left' (beBytes_length 2 _)
  have t3 : (beBytes 4 val.length ++ key ++ val).take 4 = beBytes 4 val.length := by
    rw [show beBytes 4 val.length ++ key ++ val =
        beBytes 4 val.length ++ (key ++ val) by simp [List.append_assoc]]
    exact List.take_left' (beBytes_length 4 _)
  rw [t1, t2, t3]
  simp [List.append_assoc]

/-- A record image produced by `Record::new` always validates. -/
theorem isValid_recordMake (key val : List Nat) (txId : Nat) :
    isValid (recordMake key val txId) = true := by
  simp [isValid, storedHashOf_recordMake, computedHashOf_recordMake]

theorem recordComplete_recordMake (key val : List Nat) (txId : Nat)
    (hk : key.length ≤ 65535) (hv : val.length ≤ 4294967295) :
    recordComplete (recordMake key val txId) := by
  refine ⟨?_, ?_⟩
  · rw [recordMake_length]; omega
  · rw [recordMake_length, keySizeOf_recordMake, valueSizeOf_recordMake,
      Nat.mod_eq_of_lt (show key.length < 65536 by omega),
      Nat.mod_eq_of_lt (show val.length < 4294967296 by omega)]

/-! ### `readFrom` behaviour on complete records -/

theorem keySizeOf_append (r t : List Nat) (h : HEADER_SIZE ≤ r.length) :
    keySizeOf (r ++ t) = keySizeOf r := by
  unfold keySizeOf
  rw [List.drop_append_of_le_length (by simp [HEADER_SIZE] at h; omega),
    List.take_append_of_le_length (by simp [HEADER_SIZE] at h; simp [List.length_drop]; omega)]

theorem valueSizeOf_append (r t : List Nat) (h : HEADER_SIZE ≤ r.length) :
    valueSizeOf (r ++ t) = valueSizeOf r := by
  unfold valueSizeOf
  rw [List.drop_append_of_le_length (by simp [HEADER_SIZE] at h; omega),
    List.take_append_of_le_length (by simp [HEADER_SIZE] at h; simp [List.length_drop]; omega)]

/-- Reading from a stream that starts with a complete record consumes
exactly that record. -/
theorem readFrom_complete_append (r t : List Nat) (h : recordComplete r) :
    readFrom (r ++ t) = some (r, t) := by
  obtain ⟨h1, h2⟩ := h
  unfold readFrom
  rw [if_neg (by simp [List.length_append]; omega)]
  rw [keySizeOf_append r t h1, valueSizeOf_append r t h1]
  rw [if_neg (by simp [List.length_append]; omega)]
  have htot : HEADER_SIZE + keySizeOf r + valueSizeOf r = r.length := h2.symm
  rw [htot, List.take_left, List.drop_left]

/-- A complete record read on its own consumes the whole stream. -/
theorem readFrom_complete (r : List Nat) (h : recordComplete r) :
    readFrom r = some (r, []) := by
  have := readFrom_complete_append r [] h
  simpa using this

/-- In the `some` case the remaining stream is strictly shorter:
termination measure for the file scans. -/
theorem readFrom_rest_length_lt (s r rest : List Nat)
    (h : readFrom s = some (r, rest)) : rest.length < s.length := by
  unfold readFrom at h
  by_cases h1 : s.length < HEADER_SIZE
  · simp [h1] at h
  · rw [if_neg h1] at h
    by_cases h2 : s.length < HEADER_SIZE + keySizeOf s + valueSizeOf s
    · simp [h2] at h
    · rw [if_neg h2] at h
      simp only [Option.some.injEq, Prod.mk.injEq] at h
      obtain ⟨_, hrest⟩ := h
      subst hrest
      simp only [List.length_drop]
      simp [HEADER_SIZE] at h1 h2 ⊢
      omega

/-- In the `some` case the record returned is the `total`-byte prefix,
and its length is positive. -/
theorem readFrom_record_length (s r rest : List Nat)
    (h : readFrom s = some (r, rest)) :
    r.length = HEADER_SIZE + keySizeOf s + valueSizeOf s ∧ rest = s.drop r.length := by
  unfold readFrom at h
  by_cases h1 : s.length < HEADER_SIZE
  · simp [h1] at h
  · rw [if_neg h1] at h
    by_cases h2 : s.length < HEADER_SIZE + keySizeOf s + valueSizeOf s
    · simp [h2] at h
    · rw [if_neg h2] at h
      simp only [Option.some.injEq, Prod.mk.injEq] at h
      obtain ⟨hr, hrest⟩ := h
      subst hr hrest
      constructor
      · rw [List.length_take]; omega
      · rw [List.length_take, Nat.min_eq_left (by omega)]

/-! ### Keydir types (`src/keydir.rs`) -/

/-- `EntryPointer`: where a key's current value lives on disk. -/
structure EntryPointer where
  fileId : Nat
  valuePosition : Nat
  valueSize : Nat
  txId : Nat
deriving DecidableEq, Repr

/-- `EntryWithLiveness`, as reconstructed at open. -/
structure EntryWithLiveness where
  liveness : Liveness
  entry : EntryPointer
deriving DecidableEq, Repr

/-- Errors that loading can surface (`error.rs`): `CorruptRecord` for a
CRC mismatch, `IoError` for a filesystem failure. -/
inductive Err where
  | corruptRecord
  | ioError
deriving DecidableEq, Repr

/-- One step of `EntryWithLiveness::read_one` folded into the scan loop
of `Loadable::load_entries_from_file`: read a record (treating any
`UnexpectedEof` as end of file, exactly as the source's catch-all EOF
arm does), fail on a CRC mismatch, otherwise record the entry at
`value_position = offset + HEADER_SIZE + key_size` and advance the
offset by the record length. The `fuel` argument only bounds the
recursion so that the definition is structural (hence computable by
the kernel); calling with `fuel = s.length` is always enough, since a
record consumes at least one byte, and `scanEntries_eqn` below shows
the wrapper satisfies exactly the source's recurrence. -/
def scanEntriesGo (fileId : Nat) :
    Nat → List Nat → Nat → List (List Nat × EntryWithLiveness) →
    Except Err (List (List Nat × EntryWithLiveness))
  | 0, _, _, acc => .ok acc
  | fuel + 1, s, offset, acc =>
    match readFrom s with
    | none => .ok acc
    | some (r, rest) =>
      if isValid r then
        scanEntriesGo fileId fuel rest (offset + r.length)
          (assocInsert acc (keyBytesOf r)
            ⟨livenessOf r,
              ⟨fileId, offset + HEADER_SIZE + keySizeOf r, valueSizeOf r, txIdOf r⟩⟩)
      else .error .corruptRecord

/-- The record scan of `load_entries_from_file`, with the fuel fixed at
its provably sufficient value. -/
def scanEntries (fileId : Nat) (s : List Nat) (offset : Nat)
    (acc : List (List Nat × EntryWithLiveness)) :
    Except Err (List (List Nat × EntryWithLiveness)) :=
  scanEntriesGo fileId s.length s offset acc

theorem scanEntriesGo_fuel (fileId : Nat) (fuel1 : Nat) :
    ∀ (fuel2 : Nat) (s : List Nat) (offset : Nat) (acc : List (List Nat × EntryWithLiveness)),
      s.length ≤ fuel1 → s.length ≤ fuel2 →
      scanEntriesGo fileId fuel1 s offset acc = scanEntriesGo fileId fuel2 s offset acc := by
  induction fuel1 with
  | zero =>
    intro fuel2 s offset acc h1 _
    have hs : s = [] := List.eq_nil_of_length_eq_zero (by omega)
    subst hs
    cases fuel2 with
    | zero => rfl
    | succ m => simp [scanEntriesGo, readFrom, HEADER_SIZE]
  | succ n ih =>
    intro fuel2 s offset acc h1 h2
    cases fuel2 with
    | zero =>
      have hs : s = [] := List.eq_nil_of_length_eq_zero (by omega)
      subst hs
      simp [scanEntriesGo, readFrom, HEADER_SIZE]
    | succ m =>
      simp only [scanEntriesGo]
      rcases hr : readFrom s with _ | ⟨r, rest⟩
      · rfl
      · have hlt := readFrom_rest_length_lt s r rest hr
        by_cases hv : isValid r
        · simp only [hv, if_true]
          exact ih m rest (offset + r.length) _ (by omega) (by omega)
        · simp [hv]

/-- The wrapper satisfies the source's recurrence. -/
theorem scanEntries_eqn (fileId : Nat) (s : List Nat) (offset : Nat)
    (acc : List (List Nat × EntryWithLiveness)) :
    scanEntries fileId s offset acc =
      match readFrom s with
      | none => .ok acc
      | some (r, rest) =>
        if isValid r then
          scanEntries fileId rest (offset + r.length)
            (assocInsert acc (keyBytesOf r)
              ⟨livenessOf r,
                ⟨fileId, offset + HEADER_SIZE + keySizeOf r, valueSizeOf r, txIdOf r⟩⟩)
        else .error .corruptRecord := by
  unfold scanEntries
  rcases hl : s.length with _ | n
  · have hs : s = [] := List.eq_nil_of_length_eq_zero hl
    subst hs
    simp [scanEntriesGo, readFrom, HEADER_SIZE]
  · simp only [scanEntriesGo]
    rcases hr : readFrom s with _ | ⟨r, rest⟩
    · rfl
    · have hlt := readFrom_rest_length_lt s r rest hr
      by_cases hv : isValid r
      · simp only [hv, if_true]
        exact scanEntriesGo_fuel fileId n rest.length rest (offset + r.length) _
          (by omega) (by omega)
      · simp [hv]

/-- `Loadable::load_entries_from_file` for `EntryWithLiveness`. -/
def loadEntriesFromFile (fileId : Nat) (content : List Nat) :
    Except Err (List (List Nat × EntryWithLiveness)) :=
  scanEntries fileId content 0 []

/-- The per-key fold of `Loadable::load_latest_entries`: a later file's
entry replaces an earlier one only when its `tx_id` is strictly
greater. -/
def mergeLatestEntries (acc newEntries : List (List Nat × EntryWithLiveness)) :
    List (List Nat × EntryWithLiveness) :=
  newEntries.foldl
    (fun acc p =>
      match assocGet acc p.1 with
      | some existing =>
        if existing.entry.txId < p.2.entry.txId then assocInsert acc p.1 p.2 else acc
      | none => assocInsert acc p.1 p.2)
    acc

/-- `Loadable::load_latest_entries` over the files named by the given
ids, in the given order. -/
def loadLatestEntries (dir : List (Nat × List Nat)) (ids : List Nat) :
    Except Err (List (List Nat × EntryWithLiveness)) :=
  ids.foldlM
    (fun acc id =>
      match assocGet dir id with
      | none => .error Err.ioError
      | some content => (loadEntriesFromFile id content).map (mergeLatestEntries acc))
    []

/-- `Keydir::latest_tx_id`: `None` on an empty keydir, otherwise the
maximum `tx_id` over the values. -/
def latestTxId (keydir : List (List Nat × EntryPointer)) : Option Nat :=
  match keydir with
  | [] => none
  | _ => some (keydir.foldl (fun a p => max a p.2.txId) 0)

/-! ### Engine state and operations (`src/base.rs`) -/

/-- The observable state of a `Base` engine together with the database
directory: `dataFiles` is the directory (file name, flushed on-disk
bytes), `buffer` the not-yet-flushed bytes of the `BufWriter` around
the active file. -/
structure EngineState where
  dataFiles : List (Nat × List Nat)
  activeFileId : Nat
  buffer : List Nat
  offset : Nat
  txId : Nat
  keydir : List (List Nat × EntryPointer)
  maxFileSizeBytes : Nat
  flushEvery : Bool
deriving DecidableEq, Repr

/-- `Base::flush`: hand the buffered bytes of the active file to the
filesystem. -/
def flushModel (st : EngineState) : EngineState :=
  { st with
    dataFiles := assocUpdate st.dataFiles st.activeFileId (· ++ st.buffer)
    buffer := [] }

/-- `Base::new` (the open/recovery path): list the numeric files, sort
the ids, take `active_file_id = latest + 1`, scan every file oldest id
first folding per key by highest `tx_id`, drop keys whose winning
entry is a tombstone, set the transaction counter from the surviving
(live) entries, and create the new empty active file. -/
def openModel (dir : List (Nat × List Nat)) (maxFileSizeBytes : Nat)
    (flushEvery : Bool) : Except Err EngineState :=
  let ids := sortNat (dir.map (·.1))
  let latest := ids.getLast?.getD 0
  let active := latest + 1
  match loadLatestEntries dir ids with
  | .error e => .error e
  | .ok entries =>
    let keydir := entries.filterMap
      (fun p => if p.2.liveness = Liveness.deleted then none else some (p.1, p.2.entry))
    let latestTx := (latestTxId keydir).getD 0
    .ok
      { dataFiles := dir ++ [(active, [])]
        activeFileId := active
        buffer := []
        offset := 0
        txId := latestTx + 1
        keydir := keydir
        maxFileSizeBytes := maxFileSizeBytes
        flushEvery := flushEvery }

/-- The rollover tail shared by `write_insert` and `write_delete`: when
the running `offset` has reached `max_file_size_bytes`, flush, bump
`active_file_id` and create the new empty active file. The source does
not reset `offset` here. -/
def rolloverModel (st : EngineState) : EngineState :=
  if st.maxFileSizeBytes ≤ st.offset then
    let st := flushModel st
    { st with
      activeFileId := st.activeFileId + 1
      dataFiles := st.dataFiles ++ [(st.activeFileId + 1, [])] }
  else st

/-- `Base::insert` / `write_insert` over encoded bytes: bump the
transaction counter, append the record to the buffered writer, point
the keydir at `offset + HEADER_SIZE + key_size`, advance `offset`,
roll over if needed, and flush when the configured behavior is
`AfterEveryWrite`. -/
def insertModel (st : EngineState) (key val : List Nat) : EngineState :=
  let tx := st.txId + 1
  let r := recordMake key val tx
  let st :=
    { st with
      txId := tx
      buffer := st.buffer ++ r
      keydir := assocInsert st.keydir key
        ⟨st.activeFileId, st.offset + HEADER_SIZE + keySizeOf r, valueSizeOf r, tx⟩
      offset := st.offset + (HEADER_SIZE + keySizeOf r + valueSizeOf r) }
  let st := rolloverModel st
  if st.flushEvery then flushModel st else st

/-- `Base::remove` / `write_delete`: a no-op when the key is absent
from the keydir; otherwise append a record whose value is the
serialized tombstone and remove the key from the keydir. -/
def removeModel (st : EngineState) (key : List Nat) : EngineState :=
  if (assocGet st.keydir key).isSome then
    let tx := st.txId + 1
    let r := recordMake key SERIALIZED_TOMBSTONE tx
    let st :=
      { st with
        txId := tx
        buffer := st.buffer ++ r
        keydir := assocErase st.keydir key
        offset := st.offset + (HEADER_SIZE + keySizeOf r + valueSizeOf r) }
    let st := rolloverModel st
    if st.flushEvery then flushModel st else st
  else st

/-- `Base::get`: keydir lookup, then open the named data file, seek to
`value_position` and `read_exact` `value_size` bytes. `none` is an I/O
error (missing file, or `read_exact` hitting end of file); `some none`
is a key absent from the keydir; `some (some v)` returns the raw value
bytes. -/
def getModel (st : EngineState) (key : List Nat) : Option (Option (List Nat)) :=
  match assocGet st.keydir key with
  | none => some none
  | some e =>
    match assocGet st.dataFiles e.fileId with
    | none => none
    | some content =>
      if e.valuePosition + e.valueSize ≤ content.length then
        some (some ((content.drop e.valuePosition).take e.valueSize))
      else none

/-! ### Merge (`Base::merge` and `src/merge_pointer.rs`) -/

/-- Modelled from the spec: the `MergePointer` consumed by
`Base::merge` carries `{liveness, file_id, tx_id, record_offset,
record_size, key_size, value_size}`, where `record_offset` is the byte
offset of the record's start (its CRC byte) in its source file and
`record_size` the full record length (spec §3 and §4.3). The copy of
`merge_pointer.rs` in the tree is a stale draft exposing
`body_position`/`body_size`, while `base.rs` reads `record_offset` and
`record_size`; the fields here follow the spec's description of the
shipped design. -/
structure MergePointer where
  liveness : Liveness
  fileId : Nat
  txId : Nat
  recordOffset : Nat
  recordSize : Nat
  keySize : Nat
  valueSize : Nat
deriving DecidableEq, Repr

/-- Modelled from the spec: the `MergePointer` scan (spec §4.3) —
identical traversal to the open-time scan, but recording
`record_offset = offset` before advancing, and the record's total
length. EOF handling and the CRC check mirror the open-time loader.
As with `scanEntriesGo`, the fuel only makes the recursion structural
and `fuel = s.length` always suffices. -/
def scanMergePointersGo (fileId : Nat) :
    Nat → List Nat → Nat → List (List Nat × MergePointer) →
    Except Err (List (List Nat × MergePointer))
  | 0, _, _, acc => .ok acc
  | fuel + 1, s, offset, acc =>
    match readFrom s with
    | none => .ok acc
    | some (r, rest) =>
      if isValid r then
        scanMergePointersGo fileId fuel rest (offset + r.length)
          (assocInsert acc (keyBytesOf r)
            ⟨livenessOf r, fileId, txIdOf r, offset, r.length, keySizeOf r, valueSizeOf r⟩)
      else .error .corruptRecord

/-- The merge-pointer scan of one file, with sufficient fuel. -/
def scanMergePointers (fileId : Nat) (s : List Nat) (offset : Nat)
    (acc : List (List Nat × MergePointer)) :
    Except Err (List (List Nat × MergePointer)) :=
  scanMergePointersGo fileId s.length s offset acc

/-- `Loadable::load_latest_entries` for `MergePointer`: same per-key
fold by strictly greater `tx_id`. -/
def mergeLatestPointers (acc newPointers : List (List Nat × MergePointer)) :
    List (List Nat × MergePointer) :=
  newPointers.foldl
    (fun acc p =>
      match assocGet acc p.1 with
      | some existing =>
        if existing.txId < p.2.txId then assocInsert acc p.1 p.2 else acc
      | none => assocInsert acc p.1 p.2)
    acc

/-- Load the latest merge pointers from the named files, in order. -/
def loadLatestPointers (dir : List (Nat × List Nat)) (ids : List Nat) :
    Except Err (List (List Nat × MergePointer)) :=
  ids.foldlM
    (fun acc id =>
      match assocGet dir id with
      | none => .error Err.ioError
      | some content => (scanMergePointers id content 0 []).map (mergeLatestPointers acc))
    []

/-- Outcome of `Base::merge`: `panic` models an aborted process (the
`unwrap` of `inactive_db_files.pop()` on an empty worklist, or the
`assert!` on the number of copied bytes failing); `err` a returned
`Err`; `ok` a normal return with the new state. -/
inductive MergeResult where
  | panic
  | err (e : Err)
  | ok (st : EngineState)
deriving DecidableEq, Repr

/-- `Vec::pop`: remove and return the LAST element. -/
def popLast (l : List Nat) : Option (Nat × List Nat) :=
  match l.getLast? with
  | none => none
  | some x => some (x, l.dropLast)

/-- The per-pointer loop of `Base::merge`. The loop state carries the
worklist of inactive file ids (`inactive_db_files`), the id of the
merge output the open `BufWriter` handle appends to (`curOpen`,
`None` before the first open), the bytes of the `.merge` sidecar
files, the running output `offset`, and the keydir. Faithful to the
source, a fresh id is popped from the worklist on EVERY iteration
(panicking when the worklist is empty), the handle is only re-opened
on the first iteration or when `offset > max_file_size_bytes`, the
popped id — not the id of the file the handle writes to — is stored in
the new keydir entry, and `offset` is never reset on rollover. -/
def mergeLoop (dataFiles : List (Nat × List Nat)) (maxFileSizeBytes : Nat) :
    List (List Nat × MergePointer) → List Nat → Option Nat →
    List (Nat × List Nat) → Nat → List (List Nat × EntryPointer) →
    Except Err (Option (List (Nat × List Nat) × List (List Nat × EntryPointer)))
  | [], _, _, mergeFiles, _, keydir => .ok (some (mergeFiles, keydir))
  | (key, mp) :: rest, worklist, curOpen, mergeFiles, offset, keydir =>
    let skip : Bool :=
      match assocGet keydir key with
      | some e => decide (mp.txId < e.txId)
      | none => false
    if skip then
      mergeLoop dataFiles maxFileSizeBytes rest worklist curOpen mergeFiles offset keydir
    else
      match popLast worklist with
      | none => .ok none
      | some (popped, worklist1) =>
        let opened :=
          match curOpen with
          | some cur =>
            if maxFileSizeBytes < offset then
              match popLast worklist1 with
              | none => none
              | some (popped2, worklist2) =>
                some (popped2, worklist2, popped2, mergeFiles ++ [(popped2, [])])
              else
                some (popped, worklist1, cur, mergeFiles)
          | none => some (popped, worklist1, popped, mergeFiles ++ [(popped, [])])
        match opened with
        | none => .ok none
        | some (cwfid, worklist', cur', mergeFiles') =>
          match assocGet dataFiles mp.fileId with
          | none => .error Err.ioError
          | some content =>
            let bytes := (content.drop mp.recordOffset).take mp.recordSize
            if bytes.length = mp.recordSize then
              mergeLoop dataFiles maxFileSizeBytes rest worklist' (some cur')
                (assocUpdate mergeFiles' cur' (· ++ bytes))
                (offset + mp.recordSize)
                (assocInsert keydir key
                  ⟨cwfid, offset + HEADER_SIZE + mp.keySize, mp.valueSize, mp.txId⟩)
            else .ok none

/-- `Base::merge`: scan the inactive files for the latest live merge
pointer per key, skip pointers shadowed by a strictly newer keydir
entry, copy the surviving records into `.merge` sidecars, then delete
every inactive data file and rename every non-empty sidecar to its
numeric stem (deleting empty sidecars). -/
def mergeModel (st : EngineState) : MergeResult :=
  let inactive := (st.dataFiles.map (·.1)).filter (· ≠ st.activeFileId)
  match loadLatestPointers st.dataFiles inactive with
  | .error e => .err e
  | .ok pointers =>
    let live := pointers.filter (fun p => p.2.liveness = Liveness.live)
    match mergeLoop st.dataFiles st.maxFileSizeBytes live inactive none [] 0 st.keydir with
    | .error e => .err e
    | .ok none => .panic
    | .ok (some (mergeFiles, keydir)) =>
      let kept := st.dataFiles.filter (fun p => p.1 = st.activeFileId)
      let renamed := mergeFiles.filter (fun p => 0 < p.2.length)
      .ok { st with dataFiles := kept ++ renamed, keydir := keydir }

/-! ### Small helpers for stating the theorems -/

/-- A throwaway state used only to make `Except`-valued runs total in
statements; every theorem that uses it first establishes that the run
actually succeeded. -/
def dummyState : EngineState :=
  { dataFiles := []
    activeFileId := 0
    buffer := []
    offset := 0
    txId := 0
    keydir := []
    maxFileSizeBytes := 0
    flushEvery := false }

/-- Extract a successfully opened state. -/
def getOk : Except Err EngineState → EngineState
  | .ok st => st
  | .error _ => dummyState

/-- Extract the state of a merge that returned normally. -/
def afterMerge (st : EngineState) : EngineState :=
  match mergeModel st with
  | .ok st2 => st2
  | _ => dummyState

/-- Whether `merge` returned `Ok`. -/
def mergeOk (st : EngineState) : Bool :=
  match mergeModel st with
  | .ok _ => true
  | _ => false

/-- Whether an `Except`-valued run succeeded. -/
def exceptIsOk {α : Type} (e : Except Err α) : Bool :=
  match e with
  | .ok _ => true
  | .error _ => false

/-- The `tx_id` fields of the records persisted in one data file, in
file order, read with the same record traversal the engine uses (fuel
as in `scanEntriesGo`). -/
def persistedTxIdsGo : Nat → List Nat → List Nat
  | 0, _ => []
  | fuel + 1, s =>
    match readFrom s with
    | none => []
    | some (r, rest) => txIdOf r :: persistedTxIdsGo fuel rest

/-- The `tx_id` fields of the records persisted in one data file. -/
def persistedTxIds (s : List Nat) : List Nat :=
  persistedTxIdsGo s.length s

instance {α : Type} [DecidableEq α] : DecidableEq (Except Err α) := fun a b =>
  match a, b with
  | .ok x, .ok y =>
    if h : x = y then isTrue (by rw [h]) else isFalse (fun hc => h (Except.ok.inj hc))
  | .error x, .error y =>
    if h : x = y then isTrue (by rw [h]) else isFalse (fun hc => h (Except.error.inj hc))
  | .ok _, .error _ => isFalse (fun hc => Except.noConfusion hc)
  | .error _, .ok _ => isFalse (fun hc => Except.noConfusion hc)

/-- Scanning a concatenation of complete, CRC-valid record images
followed by `tail` first folds all the records in, then continues on
`tail`; scanning the records alone succeeds. -/
theorem scanEntries_goods (fileId : Nat) :
    ∀ (goods : List (List Nat)),
      (∀ g ∈ goods, recordComplete g ∧ isValid g = true) →
      ∀ (tail : List Nat) (offset : Nat) (acc : List (List Nat × EntryWithLiveness)),
        ∃ acc2,
          scanEntries fileId (goods.flatten ++ tail) offset acc =
            scanEntries fileId tail (offset + goods.flatten.length) acc2 ∧
          scanEntries fileId goods.flatten offset acc = Except.ok acc2 := by
  intro goods
  induction goods with
  | nil =>
    intro _ tail offset acc
    refine ⟨acc, ?_, ?_⟩
    · simp
    · rw [scanEntries_eqn]
      simp [readFrom, HEADER_SIZE]
  | cons g gs ih =>
    intro hgoods tail offset acc
    obtain ⟨hc, hv⟩ := hgoods g (by simp)
    have hgs : ∀ x ∈ gs, recordComplete x ∧ isValid x = true :=
      fun x hx => hgoods x (by simp [hx])
    obtain ⟨acc2, ih1, ih2⟩ := ih hgs tail (offset + g.length)
      (assocInsert acc (keyBytesOf g)
        ⟨livenessOf g, ⟨fileId, offset + HEADER_SIZE + keySizeOf g, valueSizeOf g, txIdOf g⟩⟩)
    refine ⟨acc2, ?_, ?_⟩
    · have hjoin : (g :: gs).flatten ++ tail = g ++ (gs.flatten ++ tail) := by
        simp
      rw [hjoin, scanEntries_eqn, readFrom_complete_append g _ hc]
      simp only [hv, if_true]
      rw [ih1]
      have : offset + g.length + gs.flatten.length = offset + (g :: gs).flatten.length := by
        simp; omega
      rw [this]
    · have hjoin : (g :: gs).flatten = g ++ gs.flatten := by simp
      rw [hjoin, scanEntries_eqn, readFrom_complete_append g _ hc]
      simp only [hv, if_true]
      exact ih2

/-- The full layout-and-round-trip contract of the record codec: total
length, position and encoding of every header field, `read_from`
consuming exactly the buffer, `is_valid`, and the accessors returning
the original key, value and tx_id. -/
def RecordCodecSpec (key val : List Nat) (txId : Nat) : Prop :=
  (recordMake key val txId).length = HEADER_SIZE + key.length + val.length ∧
  (recordMake key val txId).take 4 =
    beBytes 4 (crc32 ((recordMake key val txId).drop 4)) ∧
  ((recordMake key val txId).drop 4).take 16 = beBytes 16 txId ∧
  ((recordMake key val txId).drop 20).take 2 = beBytes 2 key.length ∧
  ((recordMake key val txId).drop 22).take 4 = beBytes 4 val.length ∧
  readFrom (recordMake key val txId) = some (recordMake key val txId, []) ∧
  isValid (recordMake key val txId) = true ∧
  txIdOf (recordMake key val txId) = txId ∧
  keyBytesOf (recordMake key val txId) = key ∧
  valueBytesOf (recordMake key val txId) = val

/-- C7: for every key and value whose encoded sizes fit the limits
(key ≤ 2^16 − 1 bytes, value ≤ 2^32 − 1 bytes), the buffer produced by
`Record::new` has length exactly 26 + key_size + value_size, carries a
4-byte big-endian CRC-32 over bytes [4..end] at offset 0, a 16-byte
big-endian tx_id at offset 4, a 2-byte big-endian key size at offset
20 and a 4-byte big-endian value size at offset 22, and parsing it
back with `read_from` yields a record that validates and whose
accessors return the original tx_id, key bytes, and value bytes. -/
theorem c7_record_codec_roundtrip (key val : List Nat) (txId : Nat)
    (hk : key.length ≤ 65535) (hv : val.length ≤ 4294967295)
    (ht : txId < 2 ^ 128) :
    RecordCodecSpec key val txId := by
  refine ⟨recordMake_length key val txId, ?_, ?_, ?_, ?_,
    readFrom_complete _ (recordComplete_recordMake key val txId hk hv),
    isValid_recordMake key val txId, ?_,
    keyBytesOf_recordMake key val txId hk,
    valueBytesOf_recordMake key val txId hk hv⟩
  · rw [recordMake_take4, recordMake_drop4]
  · rw [recordMake_drop4,
      show beBytes 16 txId ++ beBytes 2 key.length ++ beBytes 4 val.length ++ key ++ val =
        beBytes 16 txId ++ (beBytes 2 key.length ++ beBytes 4 val.length ++ key ++ val) by
      simp [List.append_assoc]]
    exact List.take_left' (beBytes_length 16 _)
  · rw [recordMake_drop20,
      show beBytes 2 key.length ++ beBytes 4 val.length ++ key ++ val =
        beBytes 2 key.length ++ (beBytes 4 val.length ++ key ++ val) by
      simp [List.append_assoc]]
    exact List.take_left' (beBytes_length 2 _)
  · rw [recordMake_drop22,
      show beBytes 4 val.length ++ key ++ val = beBytes 4 val.length ++ (key ++ val) by
      simp [List.append_assoc]]
    exact List.take_left' (beBytes_length 4 _)
  · rw [txIdOf_recordMake]
    exact Nat.mod_eq_of_lt ht

theorem c7_record_codec_roundtrip_witness :
    (([97] : List Nat).length ≤ 65535 ∧ ([98] : List Nat).length ≤ 4294967295 ∧
      5 < 2 ^ 128) ∧ RecordCodecSpec [97] [98] 5 :=
  ⟨⟨by decide, by decide, by decide⟩,
    c7_record_codec_roundtrip [97] [98] 5 (by decide) (by decide) (by decide)⟩

/-- C6: if any record read during open has a stored CRC different from
the CRC-32 recomputed over the rest of the record, then the open-time
scan of that file fails with `CorruptRecord` — it does not skip,
repair, or silently drop the record (here: any number of valid records
may precede the corrupt one). -/
theorem c6_crc_mismatch_aborts_open (fileId : Nat) (goods : List (List Nat))
    (bad r rest : List Nat)
    (hgoods : ∀ g ∈ goods, recordComplete g ∧ isValid g = true)
    (hread : readFrom bad = some (r, rest)) (hbad : isValid r = false) :
    loadEntriesFromFile fileId (goods.flatten ++ bad) = Except.error Err.corruptRecord := by
  obtain ⟨acc2, h1, _⟩ := scanEntries_goods fileId goods hgoods bad 0 []
  unfold loadEntriesFromFile
  rw [h1, scanEntries_eqn, hread]
  simp [hbad]

set_option maxRecDepth 100000 in
theorem c6_crc_mismatch_aborts_open_witness :
    ((∀ g ∈ [recordMake [97] [1] 1], recordComplete g ∧ isValid g = true) ∧
      readFrom ((recordMake [98] [2] 2).set 0 99) =
        some ((recordMake [98] [2] 2).set 0 99, []) ∧
      isValid ((recordMake [98] [2] 2).set 0 99) = false) ∧
    loadEntriesFromFile 1 ([recordMake [97] [1] 1].flatten ++ (recordMake [98] [2] 2).set 0 99) =
      Except.error Err.corruptRecord :=
  ⟨⟨by decide, by decide, by decide⟩,
    c6_crc_mismatch_aborts_open 1 [recordMake [97] [1] 1]
      ((recordMake [98] [2] 2).set 0 99) ((recordMake [98] [2] 2).set 0 99) []
      (by decide) (by decide) (by decide)⟩

set_option maxRecDepth 100000 in
/-- C5 counterexample: the claim says end-of-file arriving mid-record —
after at least one header byte, or during the body read — makes open
fail with an I/O error. It does not: opening a directory whose single
data file holds a record truncated mid-body succeeds, and the scan of
a one-byte file (EOF after one header byte) ends cleanly with no
entries and no error, because the loader turns every `UnexpectedEof`
into a normal end of scan. -/
theorem c5_counterexample_truncation_tolerated :
    exceptIsOk (openModel [(1, (recordMake [97] [1] 1).take 30)] 268435456 true) = true ∧
    loadEntriesFromFile 1 [0] = Except.ok [] := by
  decide

/-- C5 (amended): when scanning a data file during open, end-of-file at
ANY point of a record read — before the first header byte or
mid-record — ends the scan of that file normally: the records before
the truncation are loaded, the truncated tail is silently ignored, and
open does not fail. -/
theorem c5_amended_eof_ends_scan (fileId : Nat) (goods : List (List Nat))
    (tail : List Nat)
    (hgoods : ∀ g ∈ goods, recordComplete g ∧ isValid g = true)
    (htail : readFrom tail = none) :
    loadEntriesFromFile fileId (goods.flatten ++ tail) = loadEntriesFromFile fileId goods.flatten ∧
    exceptIsOk (loadEntriesFromFile fileId goods.flatten) = true := by
  obtain ⟨acc2, h1, h2⟩ := scanEntries_goods fileId goods hgoods tail 0 []
  unfold loadEntriesFromFile
  refine ⟨?_, ?_⟩
  · rw [h1, h2, scanEntries_eqn, htail]
  · rw [h2]
    rfl

set_option maxRecDepth 100000 in
theorem c5_amended_eof_ends_scan_witness :
    ((∀ g ∈ [recordMake [97] [1] 1], recordComplete g ∧ isValid g = true) ∧
      readFrom [0] = none) ∧
    (loadEntriesFromFile 1 ([recordMake [97] [1] 1].flatten ++ [0]) =
        loadEntriesFromFile 1 [recordMake [97] [1] 1].flatten ∧
      exceptIsOk (loadEntriesFromFile 1 [recordMake [97] [1] 1].flatten) = true) :=
  ⟨⟨by decide, by decide⟩,
    c5_amended_eof_ends_scan 1 [recordMake [97] [1] 1] [0] (by decide) (by decide)⟩

/-! ### C4: the reopen transaction counter -/

theorem foldl_max_init_le (l : List (List Nat × EntryPointer)) (init : Nat) :
    init ≤ l.foldl (fun a p => max a p.2.txId) init := by
  induction l generalizing init with
  | nil => simp
  | cons p t ih => exact le_trans (le_max_left init p.2.txId) (ih _)

theorem mem_le_foldl_max :
    ∀ (l : List (List Nat × EntryPointer)) (init : Nat) (k : List Nat) (e : EntryPointer),
      (k, e) ∈ l → e.txId ≤ l.foldl (fun a p => max a p.2.txId) init := by
  intro l
  induction l with
  | nil => intro init k e h; cases h
  | cons p t ih =>
    intro init k e h
    rcases List.mem_cons.mp h with h1 | h2
    · simp only [List.foldl_cons]
      refine le_trans ?_ (foldl_max_init_le t _)
      rw [← h1]
      exact le_max_right _ _
    · simp only [List.foldl_cons]
      exact ih _ k e h2

/-- Every entry of a keydir is bounded by `latest_tx_id`. -/
theorem mem_latestTxId_le (kd : List (List Nat × EntryPointer)) (k : List Nat)
    (e : EntryPointer) (h : (k, e) ∈ kd) : e.txId ≤ (latestTxId kd).getD 0 := by
  cases kd with
  | nil => cases h
  | cons p t =>
    simp only [latestTxId, Option.getD_some]
    exact mem_le_foldl_max (p :: t) 0 k e h

set_option maxRecDepth 1000000 in
/-- C4 counterexample: the claim says the reopened counter equals
max(persisted tx_id) + 1 — here 4 — and that every record appended
after the reopen carries a tx_id strictly greater than every persisted
tx_id, including when the maximum belongs to a tombstone. After
`insert k; remove k; flush; drop`, the directory's one data file
persists tx_ids [2, 3] (the tombstone holds the maximum, 3), yet
reopening sets the counter to 1 and the first record appended after
the reopen carries tx_id 2 ≤ 3: the source computes the counter from
the live keydir only, after tombstones have been dropped. -/
theorem c4_counterexample_tombstone_max_txid :
    persistedTxIds ((assocGet (flushModel (removeModel (insertModel
        (getOk (openModel [] 268435456 true)) [97] [7]) [97])).dataFiles 1).getD []) =
      [2, 3] ∧
    (getOk (openModel (flushModel (removeModel (insertModel
        (getOk (openModel [] 268435456 true)) [97] [7]) [97])).dataFiles
        268435456 true)).txId = 1 ∧
    (assocGet (insertModel (getOk (openModel (flushModel (removeModel (insertModel
        (getOk (openModel [] 268435456 true)) [97] [7]) [97])).dataFiles
        268435456 true)) [99] [5]).keydir [99]).map (fun e => e.txId) = some 2 := by
  decide

/-- C4 (amended): opening a directory sets the transaction counter to
one more than the maximum tx_id among the live entries of the
reconstructed keydir (not the maximum persisted tx_id): every entry of
the reopened keydir has a tx_id strictly below the new counter, so
records appended after the reopen carry tx_ids strictly greater than
every live keydir entry's — but when the record holding the maximum
persisted tx_id is a tombstone, new tx_ids may collide with persisted
ones. -/
theorem c4_amended_counter_exceeds_live_entries (dir : List (Nat × List Nat))
    (maxSize : Nat) (flushEvery : Bool) (k : List Nat) (e : EntryPointer)
    (h : (k, e) ∈ (getOk (openModel dir maxSize flushEvery)).keydir) :
    e.txId < (getOk (openModel dir maxSize flushEvery)).txId := by
  rcases hl : loadLatestEntries dir (sortNat (dir.map (·.1))) with err | entries
  · simp only [openModel, getOk, hl] at h
    cases h
  · simp only [openModel, getOk, hl] at h ⊢
    have := mem_latestTxId_le _ k e h
    omega

set_option maxRecDepth 1000000 in
theorem c4_amended_counter_exceeds_live_entries_witness :
    (([97], (⟨1, 27, 1, 2⟩ : EntryPointer)) ∈
      (getOk (openModel [(1, recordMake [97] [7] 2)] 268435456 true)).keydir) ∧
    (⟨1, 27, 1, 2⟩ : EntryPointer).txId <
      (getOk (openModel [(1, recordMake [97] [7] 2)] 268435456 true)).txId :=
  ⟨by decide,
    c4_amended_counter_exceeds_live_entries [(1, recordMake [97] [7] 2)]
      268435456 true [97] ⟨1, 27, 1, 2⟩ (by decide)⟩


/-! ### C9: zero-byte data files -/

set_option maxRecDepth 1000000 in
/-- C9 counterexample: the claim says that in every reachable quiescent
state — including right after open returns — no file named by a
numeric FileId, including the freshly created active file, is zero
bytes. Opening an empty directory already violates this: the directory
then contains exactly the numeric file `1`, the fresh active file,
with zero bytes. -/
theorem c9_counterexample_fresh_active_empty :
    (getOk (openModel [] 268435456 true)).dataFiles = [(1, [])] := by
  decide

/-- C9 (amended): the zero-byte guarantee holds for the files merge
produces, not for the active file: when `merge` returns `Ok`, every
data file in the directory other than the active file is a renamed
`.merge` sidecar that passed the `len > 0` check (empty sidecars are
deleted instead of renamed), so it is non-empty; the freshly created
active file, and empty data files inherited from previous opens, may
still be zero bytes outside merge. -/
theorem c9_amended_merge_outputs_nonempty (st st2 : EngineState) (p : Nat × List Nat)
    (hm : mergeModel st = MergeResult.ok st2) (hp : p ∈ st2.dataFiles)
    (hne : p.1 ≠ st2.activeFileId) : 0 < p.2.length := by
  simp only [mergeModel] at hm
  split at hm
  · exact MergeResult.noConfusion hm
  · split at hm
    · exact MergeResult.noConfusion hm
    · exact MergeResult.noConfusion hm
    · cases MergeResult.ok.inj hm
      simp only at hp hne
      rcases List.mem_append.mp hp with h1 | h2
      · have := (List.mem_filter.mp h1).2
        exact absurd (of_decide_eq_true this) hne
      · exact of_decide_eq_true (List.mem_filter.mp h2).2

set_option maxRecDepth 1000000 in
theorem c9_amended_merge_outputs_nonempty_witness :
    (mergeModel (getOk (openModel [(1, recordMake [97] [10] 1),
        (2, recordMake [98] [20] 2)] 268435456 true)) =
      MergeResult.ok (afterMerge (getOk (openModel [(1, recordMake [97] [10] 1),
        (2, recordMake [98] [20] 2)] 268435456 true))) ∧
      (2, recordMake [97] [10] 1 ++ recordMake [98] [20] 2) ∈
        (afterMerge (getOk (openModel [(1, recordMake [97] [10] 1),
          (2, recordMake [98] [20] 2)] 268435456 true))).dataFiles ∧
      (2 : Nat) ≠ (afterMerge (getOk (openModel [(1, recordMake [97] [10] 1),
        (2, recordMake [98] [20] 2)] 268435456 true))).activeFileId) ∧
    0 < (recordMake [97] [10] 1 ++ recordMake [98] [20] 2).length :=
  ⟨⟨by decide, by decide, by decide⟩,
    c9_amended_merge_outputs_nonempty
      (getOk (openModel [(1, recordMake [97] [10] 1),
        (2, recordMake [98] [20] 2)] 268435456 true))
      (afterMerge (getOk (openModel [(1, recordMake [97] [10] 1),
        (2, recordMake [98] [20] 2)] 268435456 true)))
      (2, recordMake [97] [10] 1 ++ recordMake [98] [20] 2)
      (by decide) (by decide) (by decide)⟩

/-! ### C1, C2, C3, C10: evaluations at the failing inputs -/

set_option maxRecDepth 1000000 in
/-- C1: the round-trip claim fails on the code once a rollover has
happened, because neither write path resets `offset` to 0 when
switching to the new active file. With `max_file_size_bytes = 1`, the
first insert rolls the engine onto active file 2 leaving `offset` at
28; the second insert's record lands at position 0 of file 2 but its
keydir entry records `value_position = 28 + 26 + 1 = 55`, so after a
flush `get` on the second key seeks past the end of the file and fails
with an I/O error (`none`) instead of returning `Some(v)`; the first
key, written before the rollover, still reads back fine. -/
theorem c1_rollover_breaks_roundtrip :
    getModel (flushModel (insertModel (insertModel
        (getOk (openModel [] 1 true)) [97] [1]) [98] [2])) [98] = none ∧
    getModel (flushModel (insertModel (insertModel
        (getOk (openModel [] 1 true)) [97] [1]) [98] [2])) [97] = some (some [1]) := by
  decide

set_option maxRecDepth 1000000 in
/-- C2: on rollover the write path does flush the buffer, increment
`active_file_id` and create-new the next active file, but it does NOT
reset `offset` to 0: after one insert with `max_file_size_bytes = 1`
the engine sits on active file 2 with an empty buffer, file 1 holding
the 28-byte record — and `offset` still 28, so value positions of
subsequent records are not measured from the start of the new active
file. -/
theorem c2_rollover_keeps_offset :
    (insertModel (getOk (openModel [] 1 true)) [97] [1]).activeFileId = 2 ∧
    assocGet (insertModel (getOk (openModel [] 1 true)) [97] [1]).dataFiles 1 =
      some (recordMake [97] [1] 2) ∧
    assocGet (insertModel (getOk (openModel [] 1 true)) [97] [1]).dataFiles 2 =
      some [] ∧
    (insertModel (getOk (openModel [] 1 true)) [97] [1]).buffer = [] ∧
    (insertModel (getOk (openModel [] 1 true)) [97] [1]).offset =
      (recordMake [97] [1] 2).length ∧
    (insertModel (getOk (openModel [] 1 true)) [97] [1]).offset ≠ 0 := by
  decide

set_option maxRecDepth 1000000 in
/-- C3: merge pops a fresh id from the inactive worklist on EVERY
iteration and stamps that popped id — not the id of the merge output
the open handle is writing to — into the keydir entry. With two
inactive files holding one live key each, both records are copied into
`2.merge` (renamed to `2`), but the second key's keydir entry names
file `1`, which merge then deletes: before merge `get` returns the
value, after merge it fails with an I/O error, refuting "get(k) after
merge returns the same value as before merge". -/
theorem c3_merge_misassigns_file_ids :
    getModel (getOk (openModel [(1, recordMake [97] [10] 1),
        (2, recordMake [98] [20] 2)] 268435456 true)) [98] = some (some [20]) ∧
    getModel (afterMerge (getOk (openModel [(1, recordMake [97] [10] 1),
        (2, recordMake [98] [20] 2)] 268435456 true))) [98] = none ∧
    (assocGet (afterMerge (getOk (openModel [(1, recordMake [97] [10] 1),
        (2, recordMake [98] [20] 2)] 268435456 true))).keydir [98]).map
      (fun e => e.fileId) = some 1 ∧
    assocGet (afterMerge (getOk (openModel [(1, recordMake [97] [10] 1),
        (2, recordMake [98] [20] 2)] 268435456 true))).dataFiles 1 = none := by
  decide

set_option maxRecDepth 1000000 in
/-- C10: merge CAN abort. Because the loop pops one inactive FileId per
surviving key (not per opened output file), a directory whose single
inactive file holds live records for two distinct keys — both current
in the keydir — exhausts the one-element worklist on the second
iteration and the source's `inactive_db_files.pop().unwrap()` panics. -/
theorem c10_merge_panics_two_keys_one_file :
    mergeModel (getOk (openModel [(1, recordMake [97] [10] 1 ++
        recordMake [98] [20] 2)] 268435456 true)) = MergeResult.panic := by
  decide


/-! ### C8: tombstone classification -/

/-- A write that stays below the rollover threshold leaves the engine
exactly as the pre-rollover part of `write_insert` describes. -/
theorem insertModel_noRollover (st : EngineState) (key val : List Nat)
    (h : st.offset + (HEADER_SIZE + keySizeOf (recordMake key val (st.txId + 1)) +
      valueSizeOf (recordMake key val (st.txId + 1))) < st.maxFileSizeBytes) :
    insertModel st key val =
      (if st.flushEvery then flushModel else id)
        { st with
          txId := st.txId + 1
          buffer := st.buffer ++ recordMake key val (st.txId + 1)
          keydir := assocInsert st.keydir key
            ⟨st.activeFileId,
              st.offset + HEADER_SIZE + keySizeOf (recordMake key val (st.txId + 1)),
              valueSizeOf (recordMake key val (st.txId + 1)), st.txId + 1⟩
          offset := st.offset + (HEADER_SIZE + keySizeOf (recordMake key val (st.txId + 1)) +
            valueSizeOf (recordMake key val (st.txId + 1))) } := by
  unfold insertModel rolloverModel
  dsimp only
  rw [if_neg (show ¬ (st.maxFileSizeBytes ≤ st.offset + (HEADER_SIZE +
    keySizeOf (recordMake key val (st.txId + 1)) +
    valueSizeOf (recordMake key val (st.txId + 1)))) by omega)]
  split <;> rfl

/-- Opening a directory whose single data file holds one complete,
valid record classified as deleted reconstructs an empty keydir. -/
theorem open_single_deleted_keydir (r : List Nat) (maxS : Nat) (fe : Bool)
    (hcomp : recordComplete r) (hval : isValid r = true)
    (hlive : livenessOf r = Liveness.deleted) :
    (getOk (openModel [(1, r)] maxS fe)).keydir = [] := by
  have hscan : loadEntriesFromFile 1 r = Except.ok
      [(keyBytesOf r,
        ⟨livenessOf r, ⟨1, 0 + HEADER_SIZE + keySizeOf r, valueSizeOf r, txIdOf r⟩⟩)] := by
    unfold loadEntriesFromFile
    rw [scanEntries_eqn, readFrom_complete r hcomp]
    simp only [hval, if_true]
    rw [scanEntries_eqn]
    rfl
  have hload : loadLatestEntries [(1, r)] (sortNat ([(1, r)].map (·.1))) = Except.ok
      [(keyBytesOf r,
        ⟨livenessOf r, ⟨1, 0 + HEADER_SIZE + keySizeOf r, valueSizeOf r, txIdOf r⟩⟩)] := by
    have hids : sortNat ([(1, r)].map (·.1)) = [1] := rfl
    rw [hids]
    unfold loadLatestEntries
    simp only [List.foldlM_cons, List.foldlM_nil]
    have h1 : assocGet [(1, r)] 1 = some r := rfl
    rw [h1]
    dsimp only
    rw [hscan]
    rfl
  unfold openModel getOk
  dsimp only
  rw [hload]
  simp [hlive]

/-- C8: a record's liveness is `Deleted` exactly when its raw value
bytes equal the cached serialized tombstone sentinel (byte equality,
not type); consequently, for every key `k` and value whose encoding
equals that sentinel, the record written by `insert(k, v)` is
classified as a tombstone, so after flush, drop, and reopen, `k` is
absent from the keydir. -/
theorem c8_tombstone_byte_equality (k : List Nat) (hk : k.length ≤ 65535) :
    (∀ r, livenessOf r = Liveness.deleted ↔ valueBytesOf r = SERIALIZED_TOMBSTONE) ∧
    livenessOf (recordMake k SERIALIZED_TOMBSTONE 2) = Liveness.deleted ∧
    assocGet (getOk (openModel (flushModel (insertModel
        (getOk (openModel [] 268435456 true)) k SERIALIZED_TOMBSTONE)).dataFiles
        268435456 true)).keydir k = none := by
  have hserlen : SERIALIZED_TOMBSTONE.length = 25 := rfl
  have hks : keySizeOf (recordMake k SERIALIZED_TOMBSTONE 2) = k.length := by
    rw [keySizeOf_recordMake]
    exact Nat.mod_eq_of_lt (by omega)
  have hvs : valueSizeOf (recordMake k SERIALIZED_TOMBSTONE 2) = 25 := by
    rw [valueSizeOf_recordMake, hserlen]
  have hvb : valueBytesOf (recordMake k SERIALIZED_TOMBSTONE 2) = SERIALIZED_TOMBSTONE :=
    valueBytesOf_recordMake k SERIALIZED_TOMBSTONE 2 hk (by rw [hserlen]; omega)
  have hlive : livenessOf (recordMake k SERIALIZED_TOMBSTONE 2) = Liveness.deleted := by
    rw [livenessOf, if_pos hvb]
  refine ⟨?_, hlive, ?_⟩
  · intro r
    by_cases hc : valueBytesOf r = SERIALIZED_TOMBSTONE <;> simp [livenessOf, hc]
  · have hS0 : getOk (openModel [] 268435456 true) =
        { dataFiles := [(1, [])], activeFileId := 1, buffer := [], offset := 0,
          txId := 1, keydir := [], maxFileSizeBytes := 268435456, flushEvery := true } := rfl
    rw [hS0]
    rw [insertModel_noRollover _ k SERIALIZED_TOMBSTONE (by
      dsimp only
      rw [show (1:Nat)+1 = 2 from rfl, hks, hvs]
      simp only [HEADER_SIZE]
      omega)]
    have hcomp : recordComplete (recordMake k SERIALIZED_TOMBSTONE 2) :=
      recordComplete_recordMake k SERIALIZED_TOMBSTONE 2 hk (by rw [hserlen]; omega)
    dsimp only
    rw [show (1:Nat) + 1 = 2 from rfl]
    simp [flushModel, assocUpdate]
    rw [open_single_deleted_keydir (recordMake k SERIALIZED_TOMBSTONE 2) 268435456 true
      hcomp (isValid_recordMake k SERIALIZED_TOMBSTONE 2) hlive]
    rfl

set_option maxRecDepth 1000000 in
theorem c8_tombstone_byte_equality_witness :
    (([97] : List Nat).length ≤ 65535) ∧
    ((∀ r, livenessOf r = Liveness.deleted ↔ valueBytesOf r = SERIALIZED_TOMBSTONE) ∧
      livenessOf (recordMake [97] SERIALIZED_TOMBSTONE 2) = Liveness.deleted ∧
      assocGet (getOk (openModel (flushModel (insertModel
          (getOk (openModel [] 268435456 true)) [97] SERIALIZED_TOMBSTONE)).dataFiles
          268435456 true)).keydir [97] = none) :=
  ⟨by decide, c8_tombstone_byte_equality [97] (by decide)⟩

end B2
